import Mathlib

/-!
Verification of the Prompt-to-Visualization query sandbox and agent
orchestration engine against its specification.

The repository's backend modules (`backend/data_manager.py`,
`backend/agent.py`, `backend/main.py`) are not present in the source tree;
only the README, the React frontend (`App.jsx`, `ChartRenderer.jsx`) and the
API service (`api.js`) are.  The TabularStore / QueryExecutor /
AgentOrchestrator / ResponseValidator definitions below are therefore
modelled from the specification's own words (sections 3, 4, 6, 7 of the
spec), while the frontend definitions at the end are translated directly
from `App.jsx` and `ChartRenderer.jsx`.
-/

/-- Scalar cell value of a tabular row.  Numeric values are modelled as
integers (the repository's floating-point arithmetic is out of scope; no
claim depends on non-integral numeric results, and `mean` is modelled with
integer division of the sum by the count). -/
inductive Value where
  | num (i : Int)
  | str (s : String)
  | boolV (b : Bool)
deriving DecidableEq

/-- A row is an ordered sequence of named fields (spec section 3: "rows of
named fields", field order is preserved). -/
abbrev Row := List (String × Value)

/-- Field access in a row: first binding of the given name, if any. -/
def getField : Row → String → Option Value
  | [], _ => none
  | (k, v) :: r, f => if k = f then some v else getField r f

/-- Association-list lookup keyed by a `Value` (used for the row-alignment
key of `extend_columns`). -/
def assocVal : List (Value × Value) → Value → Option Value
  | [], _ => none
  | (k, v) :: m, x => if k = x then some v else assocVal m x

/-! ### Query expression grammar

Modelled from the spec: `backend/agent.py` / `backend/data_manager.py`
(the `query_data` tool's expression handling) are missing from the source
tree.  Spec section 4.2 prescribes "a restricted, enumerated set of
operations" — selection, filter-by-predicate, groupby-with-aggregation
(fn ∈ {count, sum, mean, min, max}), stable sort, limit, simple derived
columns — parsed from text into a typed operation list, with everything
else rejected as `UnsupportedOperation`. -/

/-- Comparison operator of a filter predicate. -/
inductive CmpOp where
  | ceq | cne | clt | cle | cgt | cge
deriving DecidableEq

/-- Aggregation function: spec section 4.2, fn ∈ {count, sum, mean, min, max}. -/
inductive AggFn where
  | acount | asum | amean | amin | amax
deriving DecidableEq

/-- Arithmetic operator of a simple derived-column expression. -/
inductive ArithOp where
  | aadd | asub | amul | adiv
deriving DecidableEq

/-- A recognized (whitelisted) query operation, spec section 4.2. -/
inductive Op where
  | select (cols : List String)
  | filter (field : String) (cmp : CmpOp) (v : Value)
  | groupAgg (keys : List String) (field : String) (fn : AggFn)
  | sort (field : String) (descend : Bool)
  | limit (n : Nat)
  | derive (newCol : String) (a : String) (op : ArithOp) (b : String)
deriving DecidableEq

/-- Raw parsed segment before the groupby/aggregate pairing check. -/
inductive RawOp where
  | rselect (cols : List String)
  | rfilter (field : String) (cmp : CmpOp) (v : Value)
  | rgroupby (keys : List String)
  | raggregate (field : String) (fn : AggFn)
  | rsort (field : String) (descend : Bool)
  | rlimit (n : Nat)
  | rderive (newCol : String) (a : String) (op : ArithOp) (b : String)
deriving DecidableEq

/-- Identifier characters of the expression grammar. -/
def isIdentChar (c : Char) : Bool := c.isAlphanum || c = '_'

/-- Strip leading and trailing spaces. -/
def trimChars (s : List Char) : List Char :=
  ((s.dropWhile (fun c => c = ' ')).reverse.dropWhile (fun c => c = ' ')).reverse

/-- Split a character list at top-level dots (dots inside parentheses are
argument text, not operation separators). -/
def splitDotsAux : List Char → Nat → List Char → List (List Char)
  | [], _, acc => [acc.reverse]
  | c :: rest, depth, acc =>
    if c = '(' then splitDotsAux rest (depth + 1) (c :: acc)
    else if c = ')' then splitDotsAux rest (depth - 1) (c :: acc)
    else if c = '.' ∧ depth = 0 then acc.reverse :: splitDotsAux rest 0 []
    else splitDotsAux rest depth (c :: acc)

/-- Split a character list at top-level commas. -/
def splitCommasAux : List Char → Nat → List Char → List (List Char)
  | [], _, acc => [acc.reverse]
  | c :: rest, depth, acc =>
    if c = '(' then splitCommasAux rest (depth + 1) (c :: acc)
    else if c = ')' then splitCommasAux rest (depth - 1) (c :: acc)
    else if c = ',' ∧ depth = 0 then acc.reverse :: splitCommasAux rest 0 []
    else splitCommasAux rest depth (c :: acc)

/-- Parse one `name(arg, ..., arg)` segment into its name and raw argument
texts; fails on anything not of that shape. -/
def parseSegment (s0 : List Char) : Option (String × List (List Char)) :=
  let s := trimChars s0
  let name := s.takeWhile isIdentChar
  let rest := s.dropWhile isIdentChar
  if name = [] then none
  else
    match rest with
    | '(' :: rest2 =>
      match rest2.reverse with
      | ')' :: revMid => some (String.mk name, splitCommasAux revMid.reverse 0 [])
      | _ => none
    | _ => none

/-- Parse an identifier argument. -/
def parseIdent (s : List Char) : Option String :=
  let t := trimChars s
  if t ≠ [] ∧ t.all isIdentChar then some (String.mk t) else none

/-- Parse a natural-number argument. -/
def parseNatArg (s : List Char) : Option Nat :=
  let t := trimChars s
  if t ≠ [] ∧ t.all Char.isDigit then
    some (t.foldl (fun n c => n * 10 + (c.toNat - 48)) 0)
  else none

/-- Parse an integer literal. -/
def parseIntArg (s : List Char) : Option Int :=
  match trimChars s with
  | '-' :: rest => (parseNatArg rest).map (fun n => -(n : Int))
  | t => (parseNatArg t).map (fun n => (n : Int))

/-- Parse a literal value of a filter predicate: a double-quoted string or
an integer literal. -/
def parseValueLit (s : List Char) : Option Value :=
  match trimChars s with
  | '"' :: rest =>
    match rest.reverse with
    | '"' :: revMid => some (.str (String.mk revMid.reverse))
    | _ => none
  | t => (parseIntArg t).map .num

/-- Find the first comparison operator in a predicate, returning the text
on its left, the operator, and the text on its right. -/
def findCmp : List Char → Option (List Char × CmpOp × List Char)
  | [] => none
  | '=' :: '=' :: rest => some ([], .ceq, rest)
  | '!' :: '=' :: rest => some ([], .cne, rest)
  | '<' :: '=' :: rest => some ([], .cle, rest)
  | '>' :: '=' :: rest => some ([], .cge, rest)
  | '<' :: rest => some ([], .clt, rest)
  | '>' :: rest => some ([], .cgt, rest)
  | c :: rest => (findCmp rest).map (fun p => (c :: p.1, p.2.1, p.2.2))

/-- Find the first arithmetic operator in a derived-column expression. -/
def findArith : List Char → Option (List Char × ArithOp × List Char)
  | [] => none
  | '+' :: rest => some ([], .aadd, rest)
  | '-' :: rest => some ([], .asub, rest)
  | '*' :: rest => some ([], .amul, rest)
  | '/' :: rest => some ([], .adiv, rest)
  | c :: rest => (findArith rest).map (fun p => (c :: p.1, p.2.1, p.2.2))

/-- Aggregation-function names of the whitelist. -/
def aggFnOfName (s : String) : Option AggFn :=
  if s = "count" then some .acount
  else if s = "sum" then some .asum
  else if s = "mean" then some .amean
  else if s = "min" then some .amin
  else if s = "max" then some .amax
  else none

/-- Parse one segment into a raw whitelisted operation; any segment whose
name is outside the whitelist (for instance an import or attribute access)
fails. -/
def parseRawOp (s : List Char) : Option RawOp :=
  match parseSegment s with
  | none => none
  | some (name, args) =>
    if name = "select" then
      if args = [] then none else (args.mapM parseIdent).map .rselect
    else if name = "filter" then
      match args with
      | [a] =>
        match findCmp a with
        | some (l, op, r) =>
          match parseIdent l, parseValueLit r with
          | some f, some v => some (.rfilter f op v)
          | _, _ => none
        | none => none
      | _ => none
    else if name = "groupby" then
      if args = [] then none else (args.mapM parseIdent).map .rgroupby
    else if name = "aggregate" then
      match args with
      | [f, fn] =>
        match parseIdent f, (parseIdent fn).bind aggFnOfName with
        | some f2, some fn2 => some (.raggregate f2 fn2)
        | _, _ => none
      | _ => none
    else if name = "sort" then
      match args with
      | [f] => (parseIdent f).map (fun f2 => .rsort f2 false)
      | [f, d] =>
        match parseIdent f, parseIdent d with
        | some f2, some "asc" => some (.rsort f2 false)
        | some f2, some "desc" => some (.rsort f2 true)
        | _, _ => none
      | _ => none
    else if name = "limit" then
      match args with
      | [n] => (parseNatArg n).map .rlimit
      | _ => none
    else if name = "derive" then
      match args with
      | [nc, e] =>
        match parseIdent nc, findArith e with
        | some nc2, some (l, op, r) =>
          match parseIdent l, parseIdent r with
          | some a, some b => some (.rderive nc2 a op b)
          | _, _ => none
        | _, _ => none
      | _ => none
    else none

/-- Pair each `groupby` with the `aggregate` that must immediately follow
it; a dangling `groupby` or a free-standing `aggregate` is rejected. -/
def combineRaw : List RawOp → Option (List Op)
  | [] => some []
  | .rgroupby ks :: .raggregate f fn :: rest =>
    (combineRaw rest).map (fun ops => Op.groupAgg ks f fn :: ops)
  | .rgroupby _ :: _ => none
  | .raggregate _ _ :: _ => none
  | .rselect cs :: rest => (combineRaw rest).map (fun ops => Op.select cs :: ops)
  | .rfilter f c v :: rest => (combineRaw rest).map (fun ops => Op.filter f c v :: ops)
  | .rsort f d :: rest => (combineRaw rest).map (fun ops => Op.sort f d :: ops)
  | .rlimit n :: rest => (combineRaw rest).map (fun ops => Op.limit n :: ops)
  | .rderive nc a op b :: rest => (combineRaw rest).map (fun ops => Op.derive nc a op b :: ops)

/-- Modelled from the spec: the expression parser of the missing
`QueryExecutor` (spec section 4.2, step 1).  Parses the textual expression
into a sequence of recognized operations; returns `none` (the
`UnsupportedOperation` case) for anything outside the whitelist. -/
def parseExpr (s : String) : Option (List Op) :=
  ((splitDotsAux s.toList 0 []).mapM parseRawOp).bind combineRaw

/-! ### Operation semantics -/

/-- Numeric view of a value. -/
def numOf : Value → Option Int
  | .num q => some q
  | _ => none

/-- Strict ordering of values: numerics by rational order, texts by string
order, booleans with `false < true`; values of different shapes are
unordered. -/
def ltVal : Value → Value → Bool
  | .num a, .num b => decide (a < b)
  | .str a, .str b => decide (a < b)
  | .boolV a, .boolV b => !a && b
  | _, _ => false

/-- Non-strict ordering of values. -/
def leVal (a b : Value) : Bool := ltVal a b || decide (a = b)

/-- Evaluate a comparison operator on two values. -/
def cmpVal : CmpOp → Value → Value → Bool
  | .ceq, a, b => decide (a = b)
  | .cne, a, b => !decide (a = b)
  | .clt, a, b => ltVal a b
  | .cle, a, b => leVal a b
  | .cgt, a, b => ltVal b a
  | .cge, a, b => leVal b a

/-- Keep the first occurrence of every element, in first-seen order
(`seen` accumulates the elements already emitted). -/
def dedupFirstAux {α : Type} [DecidableEq α] (seen : List α) : List α → List α
  | [] => []
  | a :: l =>
    if a ∈ seen then dedupFirstAux seen l else a :: dedupFirstAux (a :: seen) l

/-- Distinct elements of a list in order of first appearance. -/
def dedupFirst {α : Type} [DecidableEq α] (l : List α) : List α :=
  dedupFirstAux [] l

/-- Key of a row under a list of grouping columns. -/
def keyOf (keys : List String) (r : Row) : List (Option Value) :=
  keys.map (getField r)

/-- Fold step computing an optional binary-operation aggregate. -/
def optComb (f : Int → Int → Int) (a : Int) : Option Int → Option Int
  | none => some a
  | some b => some (f a b)

/-- Aggregate one group of rows over a field: `count` counts rows where the
field is present, the numeric aggregations run over the field's numeric
values (an empty group aggregates to 0). -/
def aggregateField (fn : AggFn) (field : String) (g : List Row) : Value :=
  let present := g.filterMap (fun r => getField r field)
  let nums := present.filterMap numOf
  match fn with
  | .acount => .num (present.length : Int)
  | .asum => .num nums.sum
  | .amean => .num (nums.sum / (nums.length : Int))
  | .amin => .num ((nums.foldr (optComb (fun a b => min a b)) none).getD 0)
  | .amax => .num ((nums.foldr (optComb (fun a b => max a b)) none).getD 0)

/-- Fields of an output row naming the group key (key columns whose value
is missing contribute no field). -/
def mkKeyFields (keys : List String) (k : List (Option Value)) : Row :=
  (keys.zip k).filterMap (fun p => p.2.map (fun v => (p.1, v)))

/-- Grouping with aggregation, spec section 4.2: one output row per
distinct key combination, in first-seen key order. -/
def execGroupAgg (keys : List String) (field : String) (fn : AggFn)
    (rows : List Row) : List Row :=
  (dedupFirst (rows.map (keyOf keys))).map (fun k =>
    mkKeyFields keys k ++
      [(field, aggregateField fn field (rows.filter (fun r => decide (keyOf keys r = k))))])

/-- Column selection: keep the named columns in the order listed. -/
def selectRow (cols : List String) (r : Row) : Row :=
  cols.filterMap (fun c => (getField r c).map (fun v => (c, v)))

/-- Derived column: append `newCol` computed from two numeric fields; a row
where either operand is missing or non-numeric is left unchanged. -/
def deriveRow (newCol : String) (a : String) (op : ArithOp) (b : String) (r : Row) : Row :=
  match (getField r a).bind numOf, (getField r b).bind numOf with
  | some x, some y =>
    let z := match op with
      | .aadd => x + y
      | .asub => x - y
      | .amul => x * y
      | .adiv => x / y
    r ++ [(newCol, .num z)]
  | _, _ => r

/-- Row comparison used by `sort(field, direction)`: rows with the field
missing sort last. -/
def rowLe (field : String) (descend : Bool) (r1 r2 : Row) : Bool :=
  match getField r1 field, getField r2 field with
  | some a, some b => if descend then leVal b a else leVal a b
  | some _, none => true
  | none, some _ => false
  | none, none => true

/-- Semantics of one whitelisted operation over the current rows, spec
section 4.2, step 2 (operations are applied left-to-right; `sort` is a
stable sort; `limit n` keeps the first `n` rows). -/
def execOp : Op → List Row → List Row
  | .select cols, rows => rows.map (selectRow cols)
  | .filter f c v, rows =>
    rows.filter (fun r =>
      match getField r f with
      | some w => cmpVal c w v
      | none => false)
  | .groupAgg keys f fn, rows => execGroupAgg keys f fn rows
  | .sort f d, rows => rows.mergeSort (rowLe f d)
  | .limit n, rows => rows.take n
  | .derive nc a op b, rows => rows.map (deriveRow nc a op b)

/-! ### Query pipeline and the TabularStore

Modelled from the spec: `backend/data_manager.py` (the in-memory DataFrame
store) is missing from the source tree.  Spec sections 3, 4.1, 4.2. -/

/-- Error taxonomy of the store and sandbox, spec section 7. -/
inductive QueryError where
  | datasetNotFound
  | unsupportedOperation
  | queryTimeout
  | resultTooLarge
deriving DecidableEq

/-- Configured row cap of a stored Dataset, spec section 3 ("documented as
100,000"). -/
def rowCap : Nat := 100000

/-- Maximum intermediate row count of query execution, spec section 4.2,
step 3. -/
def maxIntermediateRows : Nat := 100000

/-- Row-count bound of a QueryResult, spec section 3 ("e.g., ≤ 1,000"). -/
def maxResultRows : Nat := 1000

/-- Inferred column type tag, spec section 3. -/
inductive TypeTag where
  | numeric | text | boolean
deriving DecidableEq

/-- Cached schema of a dataset, spec section 3: column name to type tag,
total row count, a sample of at most 3 rows. -/
structure Schema where
  columns : List (String × TypeTag)
  rowCount : Nat
  sampleRows : List Row
deriving DecidableEq

/-- A named in-memory dataset: its rows and the lazily cached schema. -/
structure Dataset where
  rows : List Row
  schemaCache : Option Schema
deriving DecidableEq

/-- The process-wide store: an association list from dataset id to
Dataset. -/
abbrev Store := List (String × Dataset)

/-- Dataset lookup by id. -/
def lookupDataset : Store → String → Option Dataset
  | [], _ => none
  | (k, d) :: st, id => if k = id then some d else lookupDataset st id

/-- Replace or create the dataset stored under an id. -/
def setDataset : Store → String → Dataset → Store
  | [], id, d => [(id, d)]
  | (k, d0) :: st, id, d =>
    if k = id then (id, d) :: st else (k, d0) :: setDataset st id d

/-- Result of a sandboxed query, spec section 3: bounded rows plus an
explicit truncation flag. -/
structure QueryResult where
  rows : List Row
  truncated : Bool
deriving DecidableEq

/-- Run the parsed operations left-to-right, failing with `resultTooLarge`
if an intermediate result exceeds the row ceiling (spec section 4.2,
steps 2-3). -/
def runOps : List Op → List Row → Except QueryError (List Row)
  | [], rows => .ok rows
  | op :: rest, rows =>
    let out := execOp op rows
    if out.length > maxIntermediateRows then .error .resultTooLarge
    else runOps rest out

/-- Modelled from the spec: `query(dataset_id, expression)` of the missing
`backend/data_manager.py` (spec sections 4.1, 4.2).  Unknown id fails
`datasetNotFound`; an expression outside the whitelist fails
`unsupportedOperation`; otherwise the operations run and the result is
bounded with an explicit truncation flag.  The returned store is the store
after the call. -/
def query_data (st : Store) (id : String) (expr : String) :
    Except QueryError QueryResult × Store :=
  match lookupDataset st id with
  | none => (.error .datasetNotFound, st)
  | some ds =>
    match parseExpr expr with
    | none => (.error .unsupportedOperation, st)
    | some ops =>
      match runOps ops ds.rows with
      | .error e => (.error e, st)
      | .ok out =>
        (.ok { rows := out.take maxResultRows,
               truncated := decide (out.length > maxResultRows) }, st)

/-- Modelled from the spec: `store_data_with_id` of the missing
`backend/data_manager.py` (spec sections 3, 4.1).  Replaces or creates the
dataset, truncating to the row cap and reporting the number of dropped
rows; the cached schema is invalidated. -/
def store_data_with_id (st : Store) (id : String) (rows : List Row) :
    Store × Nat :=
  (setDataset st id { rows := rows.take rowCap, schemaCache := none },
   rows.length - rowCap)

/-- Bound on how many leading rows schema inference may scan, spec
section 4.3 ("majority-vote over a bounded prefix of rows"). -/
def schemaScanRows : Nat := 100

/-- Type tag of one observed value. -/
def typeOfValue : Value → TypeTag
  | .num _ => .numeric
  | .str _ => .text
  | .boolV _ => .boolean

/-- Majority vote over the observed type tags of a column. -/
def inferColType (vals : List Value) : TypeTag :=
  let tags := vals.map typeOfValue
  let cN := tags.count .numeric
  let cT := tags.count .text
  let cB := tags.count .boolean
  if cN ≥ cT ∧ cN ≥ cB then .numeric
  else if cT ≥ cB then .text
  else .boolean

/-- Modelled from the spec: the SchemaInspector of the missing backend
(spec section 4.3) — a pure function over the rows: per-column majority
vote over a bounded prefix, total row count, a sample of up to 3 rows. -/
def inferSchema (rows : List Row) : Schema :=
  let pre := rows.take schemaScanRows
  let cols := dedupFirst (pre.map (fun r => r.map Prod.fst)).flatten
  { columns := cols.map (fun c => (c, inferColType (pre.filterMap (fun r => getField r c)))),
    rowCount := rows.length,
    sampleRows := rows.take 3 }

/-- Modelled from the spec: `get_schema(dataset_id)` of the missing
`backend/data_manager.py` (spec section 4.1) — returns the cached schema,
computing and caching it on first access. -/
def get_schema (st : Store) (id : String) : Except QueryError Schema × Store :=
  match lookupDataset st id with
  | none => (.error .datasetNotFound, st)
  | some ds =>
    match ds.schemaCache with
    | some sc => (.ok sc, st)
    | none =>
      let sc := inferSchema ds.rows
      (.ok sc, setDataset st id { ds with schemaCache := some sc })

/-- Error cases of `extend_columns`, spec section 4.1. -/
inductive ExtendError where
  | datasetNotFound
  | columnConflict
deriving DecidableEq

/-- Modelled from the spec: `extend_columns(dataset_id, column_values)` of
the missing `backend/data_manager.py` (spec section 4.1) — merges one
additional column, keyed by a row-alignment key, into an existing dataset;
fails with `columnConflict` if the column already exists with different
values. -/
def extend_columns (st : Store) (id alignKey colName : String)
    (m : List (Value × Value)) : Except ExtendError Store :=
  match lookupDataset st id with
  | none => .error .datasetNotFound
  | some ds =>
    if ds.rows.any (fun r =>
        match getField r colName, (getField r alignKey).bind (assocVal m) with
        | some v, some w => decide (v ≠ w)
        | _, _ => false) then .error .columnConflict
    else
      let rows2 := ds.rows.map (fun r =>
        if (getField r colName).isSome then r
        else
          match (getField r alignKey).bind (assocVal m) with
          | some w => r ++ [(colName, w)]
          | none => r)
      .ok (setDataset st id { rows := rows2, schemaCache := none })

/-- One operation against the store, for stating store-wide invariants. -/
inductive StoreOp where
  | opStore (id : String) (rows : List Row)
  | opExtend (id alignKey colName : String) (m : List (Value × Value))
  | opQuery (id : String) (expr : String)
  | opSchema (id : String)

/-- Apply one store operation (a failed `extend_columns` leaves the store
untouched, spec section 5: "a write either fully replaces/extends the
Dataset or fails without effect"). -/
def applyStoreOp (st : Store) : StoreOp → Store
  | .opStore id rows => (store_data_with_id st id rows).1
  | .opExtend id k c m =>
    match extend_columns st id k c m with
    | .ok st2 => st2
    | .error _ => st
  | .opQuery id e => (query_data st id e).2
  | .opSchema id => (get_schema st id).2

/-- Row-cap invariant of the store, spec section 3. -/
def capOK (st : Store) : Prop :=
  ∀ p ∈ st, (Prod.snd p).rows.length ≤ rowCap

/-! ### Agent orchestration

Modelled from the spec: `backend/agent.py` / `backend/main.py` (the
orchestration loop) are missing from the source tree.  Spec section 4.4:
an explicit finite-state machine `AwaitingSchemaCall → AwaitingQuery →
AwaitingFinalAnswer → Done` with a side channel to `Rejected`, a hard
turn-count ceiling, and single corrective retries for protocol violations
and malformed final answers. -/

/-- Final answer emitted by the agent, before validation. -/
structure FinalAnswer where
  chartKind : String
  xField : String
  yFields : List String
  data : List Row
  insight : String
deriving DecidableEq

/-- The fixed chart-kind enumeration, spec sections 3 and 4.5 (surfaced
externally as bar/line/pie/scatter/area). -/
def chartKinds : List String := ["bar", "line", "pie", "scatter", "area"]

/-- Bound on insight length, spec section 4.5 ("insight text is present
and bounded in length"); the concrete bound is a modelling choice. -/
def insightMaxLen : Nat := 1000

/-- Validated chart specification, spec section 3. -/
structure ChartSpec where
  chartKind : String
  xField : String
  yFields : List String
  data : List Row
deriving DecidableEq

/-- Validation failure signal, spec section 4.5. -/
inductive ValidationError where
  | malformedResponse
deriving DecidableEq

/-- Fields referenced by a final answer: the categorical field and every
numeric field. -/
def referencedFields (a : FinalAnswer) : List String :=
  a.xField :: a.yFields

/-- Modelled from the spec: the ResponseValidator of the missing backend
(spec section 4.5) — chart kind in the fixed enumeration, every referenced
field present as a key in every row of the attached data, data non-empty,
insight present and bounded. -/
def validateAnswer (a : FinalAnswer) : Except ValidationError ChartSpec :=
  if a.chartKind ∈ chartKinds
      ∧ a.data ≠ []
      ∧ (∀ f ∈ referencedFields a, ∀ r ∈ a.data, (getField r f).isSome = true)
      ∧ a.insight ≠ ""
      ∧ a.insight.length ≤ insightMaxLen
  then .ok { chartKind := a.chartKind, xField := a.xField,
             yFields := a.yFields, data := a.data }
  else .error .malformedResponse

/-- Orchestrator phases, spec section 4.4 (`Done` and the terminal error
classifications live in `Outcome`). -/
inductive Phase where
  | awaitingSchemaCall
  | awaitingQuery
  | awaitingFinalAnswer
deriving DecidableEq

/-- Terminal outcome of a session, spec sections 4.4 and 7. -/
inductive Outcome where
  | done (c : ChartSpec)
  | rejectedOutcome (reason : String)
  | budgetExceeded
  | protocolError
  | malformedError
deriving DecidableEq

/-- State of one orchestration session. -/
structure SessionState where
  phase : Phase
  hadSuccessfulQuery : Bool
  protocolRetryUsed : Bool
  answerRetryUsed : Bool
  turns : Nat
  outcome : Option Outcome
deriving DecidableEq

/-- Initial session state. -/
def initialState : SessionState :=
  { phase := .awaitingSchemaCall, hadSuccessfulQuery := false,
    protocolRetryUsed := false, answerRetryUsed := false,
    turns := 0, outcome := none }

/-- One observable agent action per turn. -/
inductive AgentEvent where
  | schemaCall
  | queryCall (success : Bool)
  | fetchColumnsCall
  | finalAnswer (a : FinalAnswer)
  | classifyRejected (reason : String)
deriving DecidableEq

/-- Handle a final-answer submission once it is admissible: a valid answer
terminates the session with its chart, an invalid one is granted a single
corrective retry, and a second failure is fatal (spec sections 4.4, 4.5,
7). -/
def handleFinal (s : SessionState) (a : FinalAnswer) : SessionState :=
  match validateAnswer a with
  | .ok c => { s with outcome := some (.done c) }
  | .error _ =>
    if s.answerRetryUsed then { s with outcome := some .malformedError }
    else { s with answerRetryUsed := true, phase := .awaitingFinalAnswer }

/-- Handle a protocol violation: one corrective replay, then fatal (spec
sections 4.4, 7). -/
def handleViolation (s : SessionState) : SessionState :=
  if s.protocolRetryUsed then { s with outcome := some .protocolError }
  else { s with protocolRetryUsed := true }

/-- Modelled from the spec: one turn of the orchestration state machine of
the missing `backend/agent.py` (spec section 4.4).  A terminal session
ignores further events; every turn counts against the hard turn ceiling,
and exceeding it is fatal regardless of state; a rejection classification
is accepted at any point; otherwise the event is interpreted under the
current phase's transition rules. -/
def stepEvent (maxTurns : Nat) (s0 : SessionState) (e : AgentEvent) : SessionState :=
  if s0.outcome.isSome then s0
  else
    let s := { s0 with turns := s0.turns + 1 }
    if s.turns > maxTurns then { s with outcome := some .budgetExceeded }
    else
      match e with
      | .classifyRejected r => { s with outcome := some (.rejectedOutcome r) }
      | .schemaCall =>
        match s.phase with
        | .awaitingSchemaCall => { s with phase := .awaitingQuery }
        | _ => handleViolation s
      | .queryCall ok =>
        match s.phase with
        | .awaitingQuery => { s with hadSuccessfulQuery := s.hadSuccessfulQuery || ok }
        | _ => handleViolation s
      | .fetchColumnsCall =>
        match s.phase with
        | .awaitingQuery => s
        | _ => handleViolation s
      | .finalAnswer a =>
        match s.phase with
        | .awaitingQuery =>
          if s.hadSuccessfulQuery then handleFinal s a else handleViolation s
        | .awaitingFinalAnswer => handleFinal s a
        | .awaitingSchemaCall => handleViolation s

/-- A whole session: fold the turn loop over the agent's events. -/
def runSession (maxTurns : Nat) (evs : List AgentEvent) : SessionState :=
  evs.foldl (stepEvent maxTurns) initialState

/-! ### Session output and the frontend

`sessionResponse` is modelled from spec section 6 (the missing
`backend/main.py`); `handleGenerateResponse` and `renderChart` are
translated from `App.jsx` (src/unnamed/part_001) and
`src/frontend/src/components/ChartRenderer.jsx`. -/

/-- Chart configuration object of the API response, spec section 6 and
`ChartRenderer.jsx`.  `data` is optional because the renderer guards
against a missing or null `data` field. -/
structure ChartConfig where
  x_field : String
  y_field : List String
  data : Option (List Row)
  title : Option String
  x_label : Option String
  y_label : Option String
  colors : Option (List String)
deriving DecidableEq

/-- Token accounting of the response, spec section 6. -/
structure TokenUsage where
  prompt_tokens : Nat
  completion_tokens : Nat
  total_tokens : Nat
  agent_turns : Nat
deriving DecidableEq

/-- Body of a successful `/api/visualize` response, spec section 6: either
a chart payload or a rejection `{ rejected: true, reject_reason }`. -/
structure ApiResponse where
  rejected : Bool
  reject_reason : Option String
  chart_type : Option String
  chart_config : Option ChartConfig
  insight : Option String
  token_usage : Option TokenUsage
deriving DecidableEq

/-- Modelled from the spec: the final session output of the missing
`backend/main.py` (spec section 6) — a terminated session yields a full
chart payload, the rejection object, or a structured error (never a
partial chart). -/
def sessionResponse (o : Outcome) (u : TokenUsage) : Except String ApiResponse :=
  match o with
  | .done c =>
    .ok { rejected := false, reject_reason := none,
          chart_type := some c.chartKind,
          chart_config := some { x_field := c.xField, y_field := c.yFields,
                                 data := some c.data, title := none,
                                 x_label := none, y_label := none,
                                 colors := none },
          insight := some "", token_usage := some u }
  | .rejectedOutcome r =>
    .ok { rejected := true, reject_reason := some r, chart_type := none,
          chart_config := none, insight := none, token_usage := none }
  | .budgetExceeded => .error "budget exceeded"
  | .protocolError => .error "protocol violation"
  | .malformedError => .error "malformed response"

/-- Outcome of the frontend's `handleGenerate` after the request resolves:
the displayed error text and the stored result (`App.jsx`, the success
branch of `handleGenerate`).  `setResult(null)` ran before the request, so
a rejected response leaves the result `none`; JavaScript's
`response.reject_reason || "Request was rejected."` treats a missing and
an empty reason alike. -/
def handleGenerateResponse (response : ApiResponse) : String × Option ApiResponse :=
  if response.rejected then
    (match response.reject_reason with
     | some r => if r = "" then "Request was rejected." else r
     | none => "Request was rejected.",
     none)
  else ("", some response)

/-- Abstract rendering outcome of `ChartRenderer`. -/
inductive Rendered where
  | noData
  | chart (kind : String)
  | unsupported (t : String)
deriving DecidableEq

/-- The chart types `ChartRenderer.jsx` dispatches on (its `switch`
cases). -/
def knownChartTypes : List String := ["line", "bar", "pie", "scatter", "area"]

/-- Translated from `ChartRenderer.jsx`: a missing config, missing/null
`data`, or empty `data` renders the "No data to display" placeholder;
a known chart type renders its chart; anything else renders the
"Unsupported chart type" fallback. -/
def renderChart (chartType : String) (chartConfig : Option ChartConfig) : Rendered :=
  match chartConfig with
  | none => .noData
  | some cfg =>
    match cfg.data with
    | none => .noData
    | some d =>
      if d.isEmpty then .noData
      else if chartType ∈ knownChartTypes then .chart chartType
      else .unsupported chartType



deriving instance DecidableEq for Except

/-- The operations over which the permutation-stability property is
claimed: filter and groupby-with-aggregation. -/
def isFilterGroup : Op → Bool
  | .filter _ _ _ => true
  | .groupAgg _ _ _ => true
  | _ => false

/-- The turn-ceiling invariant: a session whose turn counter has passed
the ceiling is already terminated with `budgetExceeded`. -/
def budgetInv (maxTurns : Nat) (s : SessionState) : Prop :=
  s.turns > maxTurns → s.outcome = some .budgetExceeded

/-- Reaching the final-answer phase, or terminating with a chart, requires
the success-query flag. -/
def queryInv (s : SessionState) : Prop :=
  (s.phase = .awaitingFinalAnswer → s.hadSuccessfulQuery = true) ∧
  (∀ c, s.outcome = some (.done c) → s.hadSuccessfulQuery = true)

/-- Whether a final answer is malformed in the sense of claim C7: its data
is empty, or some referenced field is absent from at least one data row. -/
def badAnswer (a : FinalAnswer) : Prop :=
  a.data = [] ∨ ∃ f ∈ referencedFields a, ∃ r ∈ a.data, getField r f = none

instance (a : FinalAnswer) : Decidable (badAnswer a) := by
  unfold badAnswer
  infer_instance

/-- The adversarial scenario expression of the spec: the text
`__import__` followed by a parenthesised single-quoted `os` (built from
character codes because of the embedded quote characters). -/
def osImportExpr : String :=
  String.mk ['_', '_', 'i', 'm', 'p', 'o', 'r', 't', '_', '_', '(',
             Char.ofNat 39, 'o', 's', Char.ofNat 39, ')']

/-- Rows of the groupby scenario of spec section 8. -/
def c3Rows : List Row :=
  [[("city", .str "A"), ("n", .num 1)],
   [("city", .str "B"), ("n", .num 2)],
   [("city", .str "A"), ("n", .num 3)]]

/-- A permutation of the scenario rows, used as a concrete witness. -/
def c3RowsRot : List Row :=
  [[("city", .str "B"), ("n", .num 2)],
   [("city", .str "A"), ("n", .num 3)],
   [("city", .str "A"), ("n", .num 1)]]

/-- The store holding the scenario rows under id `t1`. -/
def c3Store : Store := (store_data_with_id [] "t1" c3Rows).1

/-- A final answer that passes validation, used as a concrete witness. -/
def goodAnswer : FinalAnswer :=
  { chartKind := "bar", xField := "city", yFields := ["n"],
    data := [[("city", .str "A"), ("n", .num 4)]], insight := "ok" }

/-! ### Permutation lemmas for the grouped-aggregation pipeline -/

/-- Membership in `dedupFirstAux`: an element appears exactly when it is in
the remaining input and not already seen. -/
theorem mem_dedupFirstAux {α : Type} [DecidableEq α] (seen l : List α) (x : α) :
    x ∈ dedupFirstAux seen l ↔ x ∈ l ∧ x ∉ seen := by
  induction l generalizing seen with
  | nil => simp [dedupFirstAux]
  | cons a l ih =>
    by_cases ha : a ∈ seen
    · rw [dedupFirstAux, if_pos ha, ih]
      constructor
      · rintro ⟨h1, h2⟩
        exact ⟨List.mem_cons_of_mem a h1, h2⟩
      · rintro ⟨h1, h2⟩
        rcases List.mem_cons.mp h1 with h1 | h1
        · exact absurd (h1 ▸ ha) h2
        · exact ⟨h1, h2⟩
    · rw [dedupFirstAux, if_neg ha]
      by_cases hx : x = a
      · subst hx
        simp [ha]
      · simp [ih, hx]

/-- The output of `dedupFirstAux` has no duplicates. -/
theorem nodup_dedupFirstAux {α : Type} [DecidableEq α] (seen l : List α) :
    (dedupFirstAux seen l).Nodup := by
  induction l generalizing seen with
  | nil => simp [dedupFirstAux]
  | cons a l ih =>
    by_cases ha : a ∈ seen
    · rw [dedupFirstAux, if_pos ha]
      exact ih seen
    · rw [dedupFirstAux, if_neg ha]
      refine List.nodup_cons.mpr ⟨?_, ih (a :: seen)⟩
      intro hmem
      exact ((mem_dedupFirstAux (a :: seen) l a).mp hmem).2 (List.mem_cons_self a seen)

/-- First-seen deduplication maps permuted inputs to permuted outputs. -/
theorem dedupFirst_perm {α : Type} [DecidableEq α] {l l2 : List α}
    (h : l.Perm l2) : (dedupFirst l).Perm (dedupFirst l2) := by
  unfold dedupFirst
  rw [List.perm_ext_iff_of_nodup (nodup_dedupFirstAux [] l) (nodup_dedupFirstAux [] l2)]
  intro a
  simp only [mem_dedupFirstAux, List.not_mem_nil, not_false_iff, and_true]
  exact h.mem_iff

/-- The optional-aggregate fold step is left-commutative for a commutative
associative base operation. -/
theorem optComb_left_comm (f : Int → Int → Int)
    (hc : ∀ a b, f a b = f b a) (ha : ∀ a b c, f a (f b c) = f (f a b) c)
    (a b : Int) (m : Option Int) :
    optComb f a (optComb f b m) = optComb f b (optComb f a m) := by
  cases m with
  | none => simp [optComb, hc a b]
  | some c => simp only [optComb]; rw [ha, hc a b, ← ha]

/-- Folding the optional aggregate is invariant under permutation of the
values. -/
theorem foldr_optComb_perm (f : Int → Int → Int)
    (hc : ∀ a b, f a b = f b a) (ha : ∀ a b c, f a (f b c) = f (f a b) c)
    {l l2 : List Int} (h : l.Perm l2) (init : Option Int) :
    l.foldr (optComb f) init = l2.foldr (optComb f) init := by
  induction h with
  | nil => rfl
  | cons x _ ih => simp only [List.foldr_cons, ih]
  | swap x y l => simp only [List.foldr_cons, optComb_left_comm f hc ha]
  | trans _ _ ih1 ih2 => exact ih1.trans ih2

/-- Aggregation of a group is invariant under permutation of its rows. -/
theorem aggregateField_perm (fn : AggFn) (field : String) {g g2 : List Row}
    (h : g.Perm g2) : aggregateField fn field g = aggregateField fn field g2 := by
  have hpres := h.filterMap (fun r => getField r field)
  have hnums := hpres.filterMap numOf
  cases fn with
  | acount => simp only [aggregateField, hpres.length_eq]
  | asum => simp only [aggregateField, hnums.sum_eq]
  | amean => simp only [aggregateField, hnums.sum_eq, hnums.length_eq]
  | amin =>
    simp only [aggregateField]
    rw [foldr_optComb_perm _ (fun a b => min_comm a b)
      (fun a b c => (min_assoc a b c).symm) hnums]
  | amax =>
    simp only [aggregateField]
    rw [foldr_optComb_perm _ (fun a b => max_comm a b)
      (fun a b c => (max_assoc a b c).symm) hnums]

/-- Grouped aggregation maps permuted inputs to permuted outputs. -/
theorem execGroupAgg_perm (keys : List String) (field : String) (fn : AggFn)
    {rows rows2 : List Row} (h : rows.Perm rows2) :
    (execGroupAgg keys field fn rows).Perm (execGroupAgg keys field fn rows2) := by
  unfold execGroupAgg
  have hkeys : (dedupFirst (rows.map (keyOf keys))).Perm
      (dedupFirst (rows2.map (keyOf keys))) :=
    dedupFirst_perm (h.map (keyOf keys))
  have hfun : ∀ k,
      mkKeyFields keys k ++
        [(field, aggregateField fn field (rows.filter (fun r => decide (keyOf keys r = k))))] =
      mkKeyFields keys k ++
        [(field, aggregateField fn field (rows2.filter (fun r => decide (keyOf keys r = k))))] := by
    intro k
    rw [aggregateField_perm fn field (h.filter (fun r => decide (keyOf keys r = k)))]
  rw [List.map_congr_left (fun k _ => hfun k)]
  exact hkeys.map _

/-- A filter or grouped-aggregation step maps permuted inputs to permuted
outputs. -/
theorem execOp_perm {op : Op} (hop : isFilterGroup op = true)
    {rows rows2 : List Row} (h : rows.Perm rows2) :
    (execOp op rows).Perm (execOp op rows2) := by
  cases op with
  | filter f c v => exact h.filter _
  | groupAgg keys f fn => exact execGroupAgg_perm keys f fn h
  | select cols => simp [isFilterGroup] at hop
  | sort f d => simp [isFilterGroup] at hop
  | limit n => simp [isFilterGroup] at hop
  | derive nc a op2 b => simp [isFilterGroup] at hop

/-- Running a filter/groupby pipeline on permuted inputs gives the same
multiset result (and the same error, if any). -/
theorem runOps_perm {ops : List Op} (hops : ∀ op ∈ ops, isFilterGroup op = true)
    {rows rows2 : List Row} (h : rows.Perm rows2) :
    (runOps ops rows).map (fun l => (l : Multiset Row)) =
      (runOps ops rows2).map (fun l => (l : Multiset Row)) := by
  induction ops generalizing rows rows2 with
  | nil => exact congrArg Except.ok (Multiset.coe_eq_coe.mpr h)
  | cons op rest ih =>
    have h1 : (execOp op rows).Perm (execOp op rows2) :=
      execOp_perm (hops op (List.mem_cons_self op rest)) h
    simp only [runOps]
    rw [h1.length_eq]
    by_cases hc : (execOp op rows2).length > maxIntermediateRows
    · rw [if_pos hc, if_pos hc]
    · rw [if_neg hc, if_neg hc]
      exact ih (fun o ho => hops o (List.mem_cons_of_mem op ho)) h1

/-! ### Orchestrator invariants -/

/-- Handling a final answer does not change the turn counter. -/
theorem handleFinal_turns (s : SessionState) (a : FinalAnswer) :
    (handleFinal s a).turns = s.turns := by
  unfold handleFinal
  cases validateAnswer a with
  | ok c => rfl
  | error e =>
    by_cases hr : s.answerRetryUsed
    · simp [hr]
    · simp [hr]

/-- Handling a protocol violation does not change the turn counter. -/
theorem handleViolation_turns (s : SessionState) :
    (handleViolation s).turns = s.turns := by
  unfold handleViolation
  by_cases hr : s.protocolRetryUsed
  · simp [hr]
  · simp [hr]

/-- Handling a final answer does not change the success-query flag. -/
theorem handleFinal_had (s : SessionState) (a : FinalAnswer) :
    (handleFinal s a).hadSuccessfulQuery = s.hadSuccessfulQuery := by
  unfold handleFinal
  cases validateAnswer a with
  | ok c => rfl
  | error e =>
    by_cases hr : s.answerRetryUsed
    · simp [hr]
    · simp [hr]

/-- Handling a protocol violation does not change the success-query flag. -/
theorem handleViolation_had (s : SessionState) :
    (handleViolation s).hadSuccessfulQuery = s.hadSuccessfulQuery := by
  unfold handleViolation
  by_cases hr : s.protocolRetryUsed
  · simp [hr]
  · simp [hr]

/-- A protocol violation never sets phase `awaitingFinalAnswer` and never
terminates with a chart. -/
theorem handleViolation_phase (s : SessionState) :
    (handleViolation s).phase = s.phase := by
  unfold handleViolation
  by_cases hr : s.protocolRetryUsed
  · simp [hr]
  · simp [hr]

/-- Outcomes a protocol violation may set. -/
theorem handleViolation_outcome (s : SessionState) :
    (handleViolation s).outcome = some .protocolError ∨
      (handleViolation s).outcome = s.outcome := by
  unfold handleViolation
  by_cases hr : s.protocolRetryUsed
  · simp [hr]
  · simp [hr]

/-- One step preserves the turn-ceiling invariant. -/
theorem budgetInv_step (maxTurns : Nat) (s : SessionState) (e : AgentEvent)
    (h : budgetInv maxTurns s) : budgetInv maxTurns (stepEvent maxTurns s e) := by
  unfold budgetInv at *
  unfold stepEvent
  by_cases ho : s.outcome.isSome
  · simpa [ho] using h
  · simp only [ho, Bool.false_eq_true, if_false]
    by_cases ht : s.turns + 1 > maxTurns
    · simp [ht]
    · simp only [ht, if_false]
      intro habs
      exfalso
      cases e with
      | classifyRejected r => simp at habs; omega
      | schemaCall =>
        cases hp : s.phase <;>
          simp_all [handleViolation_turns] <;> omega
      | queryCall ok =>
        cases hp : s.phase <;>
          simp_all [handleViolation_turns] <;> omega
      | fetchColumnsCall =>
        cases hp : s.phase <;>
          simp_all [handleViolation_turns] <;> omega
      | finalAnswer a =>
        cases hp : s.phase with
        | awaitingSchemaCall => simp_all [handleViolation_turns]; omega
        | awaitingQuery =>
          by_cases hq : s.hadSuccessfulQuery <;>
            simp_all [handleFinal_turns, handleViolation_turns] <;> omega
        | awaitingFinalAnswer => simp_all [handleFinal_turns]; omega

/-- The turn-ceiling invariant holds along any event fold. -/
theorem budgetInv_fold (maxTurns : Nat) (evs : List AgentEvent) (s : SessionState)
    (h : budgetInv maxTurns s) :
    budgetInv maxTurns (evs.foldl (stepEvent maxTurns) s) := by
  induction evs generalizing s with
  | nil => exact h
  | cons e evs ih => exact ih _ (budgetInv_step maxTurns s e h)

/-- A step can set the success-query flag only through a successful query
event. -/
theorem had_step (maxTurns : Nat) (s : SessionState) (e : AgentEvent)
    (h : (stepEvent maxTurns s e).hadSuccessfulQuery = true) :
    s.hadSuccessfulQuery = true ∨ e = .queryCall true := by
  unfold stepEvent at h
  by_cases ho : s.outcome.isSome
  · simp only [ho, if_true] at h
    exact Or.inl h
  · simp only [ho, Bool.false_eq_true, if_false] at h
    by_cases ht : s.turns + 1 > maxTurns
    · simp only [ht, if_true] at h
      exact Or.inl h
    · simp only [ht, if_false] at h
      cases e with
      | classifyRejected r => exact Or.inl h
      | schemaCall =>
        cases hp : s.phase <;> simp_all [handleViolation_had]
      | queryCall ok =>
        cases hp : s.phase with
        | awaitingQuery =>
          rw [hp] at h
          have h3 : s.hadSuccessfulQuery = true ∨ ok = true := by simpa using h
          rcases h3 with h2 | h2
          · exact Or.inl h2
          · subst h2
            exact Or.inr rfl
        | awaitingSchemaCall => simp_all [handleViolation_had]
        | awaitingFinalAnswer => simp_all [handleViolation_had]
      | fetchColumnsCall =>
        cases hp : s.phase <;> simp_all [handleViolation_had]
      | finalAnswer a =>
        cases hp : s.phase with
        | awaitingSchemaCall => simp_all [handleViolation_had]
        | awaitingQuery =>
          by_cases hq : s.hadSuccessfulQuery <;>
            simp_all [handleFinal_had, handleViolation_had]
        | awaitingFinalAnswer => simp_all [handleFinal_had]

/-- Along an event fold, the success-query flag can only be set by a
successful query event in the history. -/
theorem had_fold (maxTurns : Nat) (evs : List AgentEvent) (s : SessionState)
    (h : (evs.foldl (stepEvent maxTurns) s).hadSuccessfulQuery = true) :
    s.hadSuccessfulQuery = true ∨ AgentEvent.queryCall true ∈ evs := by
  induction evs generalizing s with
  | nil => exact Or.inl h
  | cons e evs ih =>
    rcases ih (stepEvent maxTurns s e) h with h2 | h2
    · rcases had_step maxTurns s e h2 with h3 | h3
      · exact Or.inl h3
      · subst h3
        exact Or.inr (List.mem_cons_self _ _)
    · exact Or.inr (List.mem_cons_of_mem _ h2)

/-- A protocol violation preserves the success-before-final invariant. -/
theorem queryInv_handleViolation (s : SessionState) (h : queryInv s)
    (hn : s.outcome = none) : queryInv (handleViolation s) := by
  obtain ⟨h1, h2⟩ := h
  constructor
  · intro hp
    rw [handleViolation_phase] at hp
    rw [handleViolation_had]
    exact h1 hp
  · intro c hc
    rcases handleViolation_outcome s with h3 | h3
    · rw [h3] at hc
      cases hc
    · rw [h3, hn] at hc
      cases hc

/-- Handling a final answer preserves the success-before-final invariant
whenever the success flag is already set. -/
theorem queryInv_handleFinal (s : SessionState) (a : FinalAnswer)
    (hq : s.hadSuccessfulQuery = true) : queryInv (handleFinal s a) := by
  constructor
  · intro _
    rw [handleFinal_had]
    exact hq
  · intro c _
    rw [handleFinal_had]
    exact hq

/-- One step preserves the success-before-final invariant. -/
theorem queryInv_step (maxTurns : Nat) (s : SessionState) (e : AgentEvent)
    (h : queryInv s) : queryInv (stepEvent maxTurns s e) := by
  obtain ⟨h1, h2⟩ := h
  by_cases ho : s.outcome.isSome
  · unfold stepEvent
    simpa [ho] using ⟨h1, h2⟩
  · have hnone : s.outcome = none := by
      cases hs : s.outcome
      · rfl
      · rw [hs] at ho
        simp at ho
    unfold stepEvent
    simp only [ho, Bool.false_eq_true, if_false]
    by_cases ht : s.turns + 1 > maxTurns
    · simp only [ht, if_true]
      exact ⟨fun hp => h1 hp, fun c hc => by cases hc⟩
    · simp only [ht, if_false]
      cases e with
      | classifyRejected r =>
        exact ⟨fun hp => h1 hp, fun c hc => by cases hc⟩
      | schemaCall =>
        cases hp : s.phase with
        | awaitingSchemaCall =>
          exact ⟨(fun hp2 => by cases hp2),
                 fun c hc => Option.noConfusion (hnone.symm.trans hc)⟩
        | awaitingQuery =>
          exact queryInv_handleViolation _ ⟨(fun hp2 => by cases hp2),
            fun c hc => Option.noConfusion (hnone.symm.trans hc)⟩ hnone
        | awaitingFinalAnswer =>
          exact queryInv_handleViolation _ ⟨fun _ => h1 hp,
            fun c hc => Option.noConfusion (hnone.symm.trans hc)⟩ hnone
      | queryCall ok =>
        cases hp : s.phase with
        | awaitingQuery =>
          exact ⟨(fun hp2 => by cases hp2),
                 fun c hc => Option.noConfusion (hnone.symm.trans hc)⟩
        | awaitingSchemaCall =>
          exact queryInv_handleViolation _ ⟨(fun hp2 => by cases hp2),
            fun c hc => Option.noConfusion (hnone.symm.trans hc)⟩ hnone
        | awaitingFinalAnswer =>
          exact queryInv_handleViolation _ ⟨fun _ => h1 hp,
            fun c hc => Option.noConfusion (hnone.symm.trans hc)⟩ hnone
      | fetchColumnsCall =>
        cases hp : s.phase with
        | awaitingQuery =>
          exact ⟨(fun hp2 => by cases hp2),
                 fun c hc => Option.noConfusion (hnone.symm.trans hc)⟩
        | awaitingSchemaCall =>
          exact queryInv_handleViolation _ ⟨(fun hp2 => by cases hp2),
            fun c hc => Option.noConfusion (hnone.symm.trans hc)⟩ hnone
        | awaitingFinalAnswer =>
          exact queryInv_handleViolation _ ⟨fun _ => h1 hp,
            fun c hc => Option.noConfusion (hnone.symm.trans hc)⟩ hnone
      | finalAnswer a =>
        cases hp : s.phase with
        | awaitingSchemaCall =>
          exact queryInv_handleViolation _ ⟨(fun hp2 => by cases hp2),
            fun c hc => Option.noConfusion (hnone.symm.trans hc)⟩ hnone
        | awaitingQuery =>
          by_cases hq : s.hadSuccessfulQuery
          · simp only [hq, if_true]
            exact queryInv_handleFinal _ a rfl
          · simp only [hq, Bool.false_eq_true, if_false]
            exact queryInv_handleViolation _ ⟨(fun hp2 => by cases hp2),
              fun c hc => Option.noConfusion (hnone.symm.trans hc)⟩ hnone
        | awaitingFinalAnswer =>
          exact queryInv_handleFinal _ a (h1 hp)


/-- The success-before-final invariant holds along any event fold. -/
theorem queryInv_fold (maxTurns : Nat) (evs : List AgentEvent) (s : SessionState)
    (h : queryInv s) :
    queryInv (evs.foldl (stepEvent maxTurns) s) := by
  induction evs generalizing s with
  | nil => exact h
  | cons e evs ih => exact ih _ (queryInv_step maxTurns s e h)

/-! ### Store lemmas -/

/-- Looking up the id just written returns the written dataset. -/
theorem lookupDataset_setDataset (st : Store) (id : String) (d : Dataset) :
    lookupDataset (setDataset st id d) id = some d := by
  induction st with
  | nil => simp [setDataset, lookupDataset]
  | cons p st ih =>
    obtain ⟨k, d0⟩ := p
    by_cases hk : k = id
    · simp [setDataset, hk, lookupDataset]
    · simp [setDataset, hk, lookupDataset, ih]

/-- Every entry of the store after a write is an old entry or the written
one. -/
theorem mem_setDataset {st : Store} {id : String} {d : Dataset}
    {p : String × Dataset} (h : p ∈ setDataset st id d) :
    p ∈ st ∨ p = (id, d) := by
  induction st with
  | nil =>
    simp only [setDataset, List.mem_singleton] at h
    exact Or.inr h
  | cons q st ih =>
    obtain ⟨k, d0⟩ := q
    by_cases hk : k = id
    · simp only [setDataset, if_pos hk] at h
      rcases List.mem_cons.mp h with h1 | h1
      · exact Or.inr h1
      · exact Or.inl (List.mem_cons_of_mem _ h1)
    · simp only [setDataset, if_neg hk] at h
      rcases List.mem_cons.mp h with h1 | h1
      · exact Or.inl (h1 ▸ List.mem_cons_self _ _)
      · rcases ih h1 with h2 | h2
        · exact Or.inl (List.mem_cons_of_mem _ h2)
        · exact Or.inr h2

/-- A successful dataset lookup is a store entry. -/
theorem lookupDataset_mem {st : Store} {id : String} {ds : Dataset}
    (h : lookupDataset st id = some ds) : (id, ds) ∈ st := by
  induction st with
  | nil => simp [lookupDataset] at h
  | cons p st ih =>
    obtain ⟨k, d0⟩ := p
    by_cases hk : k = id
    · rw [lookupDataset, if_pos hk] at h
      injection h with h2
      subst h2
      subst hk
      exact List.mem_cons_self _ _
    · rw [lookupDataset, if_neg hk] at h
      exact List.mem_cons_of_mem _ (ih h)

/-- Writing a dataset within the cap preserves the row-cap invariant. -/
theorem capOK_setDataset {st : Store} {id : String} {d : Dataset}
    (h : capOK st) (hd : d.rows.length ≤ rowCap) : capOK (setDataset st id d) := by
  intro p hp
  rcases mem_setDataset hp with h1 | h1
  · exact h p h1
  · rw [h1]
    exact hd

/-- A query never changes the store. -/
theorem query_data_snd (st : Store) (id expr : String) :
    (query_data st id expr).2 = st := by
  unfold query_data
  split
  · rfl
  · split
    · rfl
    · split
      · rfl
      · rfl

/-- Every store operation preserves the row-cap invariant. -/
theorem capOK_applyStoreOp {st : Store} (h : capOK st) (op : StoreOp) :
    capOK (applyStoreOp st op) := by
  cases op with
  | opStore id rows =>
    refine capOK_setDataset h ?_
    simp only [List.length_take]
    omega
  | opExtend id k c m =>
    show capOK (match extend_columns st id k c m with
      | .ok st2 => st2
      | .error _ => st)
    unfold extend_columns
    split
    · rename_i st2 heq
      split at heq
      · cases heq
      · rename_i ds hl
        split at heq
        · cases heq
        · injection heq with heq
          subst heq
          refine capOK_setDataset h ?_
          simp only [List.length_map]
          exact h (id, ds) (lookupDataset_mem hl)
    · exact h
  | opQuery id e =>
    show capOK (query_data st id e).2
    rw [query_data_snd]
    exact h
  | opSchema id =>
    show capOK (get_schema st id).2
    unfold get_schema
    split
    · exact h
    · next ds hl =>
      split
      · exact h
      · refine capOK_setDataset h ?_
        exact h (id, ds) (lookupDataset_mem hl)

/-- The row-cap invariant holds after any sequence of store operations
starting from the empty store. -/
theorem capOK_fold (ops : List StoreOp) :
    capOK (ops.foldl applyStoreOp []) := by
  have h : ∀ st, capOK st → capOK (ops.foldl applyStoreOp st) := by
    induction ops with
    | nil => exact fun st hst => hst
    | cons op ops ih => exact fun st hst => ih _ (capOK_applyStoreOp hst op)
  refine h [] ?_
  intro p hp
  simp at hp

/-! ### Validator lemma -/

/-- A final answer with empty data or a referenced field missing from some
row fails validation. -/
theorem validateAnswer_bad {a : FinalAnswer} (h : badAnswer a) :
    validateAnswer a = .error .malformedResponse := by
  unfold validateAnswer
  rw [if_neg]
  rintro ⟨h1, h2, h3, h4, h5⟩
  rcases h with he | ⟨f, hf, r, hr, hnone⟩
  · exact h2 he
  · have h6 := h3 f hf r hr
    rw [hnone] at h6
    cases h6

/-! ### Claims -/

/-- C1: for every stored dataset and every query expression that does not
parse into a sequence of whitelisted operations, `query_data` fails with
`UnsupportedOperation` and the store is unchanged; in particular the
spec's `__import__` scenario expression does not parse. -/
theorem claim_C1_unsupported_operation (st : Store) (id : String) (ds : Dataset)
    (expr : String) (hds : lookupDataset st id = some ds)
    (hparse : parseExpr expr = none) :
    query_data st id expr = (.error .unsupportedOperation, st) ∧
    parseExpr osImportExpr = none := by
  constructor
  · unfold query_data
    split
    · rename_i hnone
      rw [hds] at hnone
      cases hnone
    · split
      · rfl
      · rename_i ops hops
        rw [hparse] at hops
        cases hops
  · decide

/-- Witness for C1: the scenario store and the `__import__` expression. -/
theorem claim_C1_witness :
    lookupDataset c3Store "t1" = some { rows := c3Rows.take rowCap, schemaCache := none } ∧
    parseExpr osImportExpr = none ∧
    query_data c3Store "t1" osImportExpr = (.error .unsupportedOperation, c3Store) :=
  ⟨by decide, by decide,
   (claim_C1_unsupported_operation c3Store "t1"
     { rows := c3Rows.take rowCap, schemaCache := none } osImportExpr
     (by decide) (by decide)).1⟩

/-- C2: query execution never mutates the store — the store after any
`query_data` call, successful or failed, is the store before it, so every
dataset's rows and cached schema are unchanged. -/
theorem claim_C2_query_pure (st : Store) (id expr : String) :
    (query_data st id expr).2 = st ∧
    ∀ id2, lookupDataset (query_data st id expr).2 id2 = lookupDataset st id2 := by
  refine ⟨query_data_snd st id expr, fun id2 => ?_⟩
  rw [query_data_snd]

/-- C3: the groupby-sum scenario of spec section 8: one output row per
distinct key in first-seen order, with the sums 4 and 2. -/
theorem claim_C3_groupby_scenario :
    query_data c3Store "t1" "groupby(city).aggregate(n, sum)" =
      (.ok { rows := [[("city", .str "A"), ("n", .num 4)],
                      [("city", .str "B"), ("n", .num 2)]],
             truncated := false },
       c3Store) := by decide

/-- C4: a pipeline of filter and groupby-with-aggregation operations,
containing no sort and no limit, yields results equal as multisets of rows
on any permutation of the input rows (and fails identically when it
fails). -/
theorem claim_C4_permutation_stable (ops : List Op)
    (hops : ∀ op ∈ ops, isFilterGroup op = true)
    {rows rows2 : List Row} (hperm : rows.Perm rows2) :
    (runOps ops rows).map (fun l => (l : Multiset Row)) =
      (runOps ops rows2).map (fun l => (l : Multiset Row)) :=
  runOps_perm hops hperm

/-- Witness for C4: the groupby-sum pipeline on the scenario rows and a
rotation of them. -/
theorem claim_C4_witness :
    (∀ op ∈ [Op.groupAgg ["city"] "n" AggFn.asum], isFilterGroup op = true) ∧
    c3Rows.Perm c3RowsRot ∧
    (runOps [Op.groupAgg ["city"] "n" AggFn.asum] c3Rows).map
        (fun l => (l : Multiset Row)) =
      (runOps [Op.groupAgg ["city"] "n" AggFn.asum] c3RowsRot).map
        (fun l => (l : Multiset Row)) :=
  ⟨by decide, by decide,
   claim_C4_permutation_stable [Op.groupAgg ["city"] "n" AggFn.asum]
     (by decide) (by decide)⟩

/-- C5: a session can be in the final-answer phase, or terminate with a
chart, only if its history contains a successful query call. -/
theorem claim_C5_query_before_final (maxTurns : Nat) (evs : List AgentEvent)
    (h : (runSession maxTurns evs).phase = .awaitingFinalAnswer ∨
         ∃ c, (runSession maxTurns evs).outcome = some (.done c)) :
    AgentEvent.queryCall true ∈ evs := by
  have hinv : queryInv (runSession maxTurns evs) :=
    queryInv_fold maxTurns evs initialState
      ⟨(fun hp => by cases hp), fun c hc => by cases hc⟩
  have hhad : (runSession maxTurns evs).hadSuccessfulQuery = true := by
    rcases h with h | ⟨c, hc⟩
    · exact hinv.1 h
    · exact hinv.2 c hc
  rcases had_fold maxTurns evs initialState hhad with h2 | h2
  · cases h2
  · exact h2

/-- Witness for C5: a session that inspects the schema, queries
successfully, and answers with a chart. -/
theorem claim_C5_witness :
    ((runSession 10 [AgentEvent.schemaCall, AgentEvent.queryCall true,
        AgentEvent.finalAnswer goodAnswer]).outcome =
      some (.done { chartKind := "bar", xField := "city", yFields := ["n"],
                    data := [[("city", .str "A"), ("n", .num 4)]] })) ∧
    AgentEvent.queryCall true ∈
      [AgentEvent.schemaCall, AgentEvent.queryCall true,
       AgentEvent.finalAnswer goodAnswer] :=
  ⟨by decide,
   claim_C5_query_before_final 10 _ (Or.inr
     ⟨{ chartKind := "bar", xField := "city", yFields := ["n"],
        data := [[("city", .str "A"), ("n", .num 4)]] }, by decide⟩)⟩

/-- C6: a session whose turn counter exceeds the hard turn ceiling has the
`BudgetExceeded` outcome — never a chart and never `Rejected`. -/
theorem claim_C6_budget_exceeded (maxTurns : Nat) (evs : List AgentEvent)
    (h : (runSession maxTurns evs).turns > maxTurns) :
    (runSession maxTurns evs).outcome = some .budgetExceeded :=
  budgetInv_fold maxTurns evs initialState
    (fun h0 => absurd h0 (Nat.not_lt_zero maxTurns)) h

/-- Witness for C6: a two-turn session against a ceiling of one turn. -/
theorem claim_C6_witness :
    (runSession 1 [AgentEvent.schemaCall, AgentEvent.schemaCall]).turns > 1 ∧
    (runSession 1 [AgentEvent.schemaCall, AgentEvent.schemaCall]).outcome =
      some .budgetExceeded :=
  ⟨by decide, claim_C6_budget_exceeded 1 _ (by decide)⟩

/-- C7: a final answer with empty data or a referenced field absent from
some row is rejected as `MalformedResponse`; the orchestrator grants
exactly one corrective retry (the session is still awaiting a final
answer, not terminated), and a second malformed answer terminates the
session with a structured error, never a chart. -/
theorem claim_C7_malformed_single_retry (maxTurns : Nat) (s : SessionState)
    (a a2 : FinalAnswer)
    (hout : s.outcome = none) (hph : s.phase = .awaitingFinalAnswer)
    (hretry : s.answerRetryUsed = false) (hturns : s.turns + 2 ≤ maxTurns)
    (ha : badAnswer a) (ha2 : badAnswer a2) :
    validateAnswer a = .error .malformedResponse ∧
    (stepEvent maxTurns s (.finalAnswer a)).outcome = none ∧
    (stepEvent maxTurns s (.finalAnswer a)).answerRetryUsed = true ∧
    (stepEvent maxTurns s (.finalAnswer a)).phase = .awaitingFinalAnswer ∧
    (stepEvent maxTurns (stepEvent maxTurns s (.finalAnswer a))
        (.finalAnswer a2)).outcome = some .malformedError := by
  have hva := validateAnswer_bad ha
  have hva2 := validateAnswer_bad ha2
  have hstep1 : stepEvent maxTurns s (.finalAnswer a) =
      { s with turns := s.turns + 1, answerRetryUsed := true,
               phase := .awaitingFinalAnswer } := by
    unfold stepEvent
    rw [hout]
    simp only [Option.isSome_none, Bool.false_eq_true, if_false]
    rw [if_neg (by omega)]
    simp [hph, handleFinal, hva, hretry]
  rw [hstep1]
  refine ⟨hva, hout, rfl, rfl, ?_⟩
  unfold stepEvent
  simp only [hout, Option.isSome_none, Bool.false_eq_true, if_false]
  rw [if_neg (by omega)]
  simp [handleFinal, hva2]

/-- Witness for C7: an answer referencing the absent field `revenue`,
submitted twice. -/
theorem claim_C7_witness :
    badAnswer { chartKind := "bar", xField := "revenue", yFields := [],
                data := [[("city", Value.str "A")]], insight := "x" } ∧
    (stepEvent 10
      (stepEvent 10
        { phase := .awaitingFinalAnswer, hadSuccessfulQuery := true,
          protocolRetryUsed := false, answerRetryUsed := false,
          turns := 3, outcome := none }
        (.finalAnswer { chartKind := "bar", xField := "revenue", yFields := [],
                        data := [[("city", Value.str "A")]], insight := "x" }))
      (.finalAnswer { chartKind := "bar", xField := "revenue", yFields := [],
                      data := [[("city", Value.str "A")]], insight := "x" })).outcome =
      some .malformedError :=
  ⟨by decide,
   (claim_C7_malformed_single_retry 10
     { phase := .awaitingFinalAnswer, hadSuccessfulQuery := true,
       protocolRetryUsed := false, answerRetryUsed := false,
       turns := 3, outcome := none }
     { chartKind := "bar", xField := "revenue", yFields := [],
       data := [[("city", Value.str "A")]], insight := "x" }
     { chartKind := "bar", xField := "revenue", yFields := [],
       data := [[("city", Value.str "A")]], insight := "x" }
     rfl rfl rfl (by decide) (by decide) (by decide)).2.2.2.2⟩

/-- C8: storing more rows than the cap keeps exactly the first cap-many
rows and reports the dropped count; the cap invariant holds after every
store operation and along any operation sequence; and queries never touch
the stored rows, so truncation can only happen at store time. -/
theorem claim_C8_row_cap (st : Store) (id : String) (rows : List Row)
    (h : rows.length > rowCap) :
    lookupDataset (store_data_with_id st id rows).1 id =
      some { rows := rows.take rowCap, schemaCache := none } ∧
    (rows.take rowCap).length = rowCap ∧
    (store_data_with_id st id rows).2 = rows.length - rowCap ∧
    (∀ st2, capOK st2 → ∀ op, capOK (applyStoreOp st2 op)) ∧
    (∀ ops : List StoreOp, capOK (ops.foldl applyStoreOp [])) ∧
    (∀ st2 id2 e, (query_data st2 id2 e).2 = st2) := by
  refine ⟨lookupDataset_setDataset st id _, ?_, rfl,
    fun st2 h2 op => capOK_applyStoreOp h2 op, capOK_fold, query_data_snd⟩
  simp only [List.length_take]
  omega

/-- Witness for C8: storing one row more than the cap. -/
theorem claim_C8_witness :
    (List.replicate (rowCap + 1) ([] : Row)).length > rowCap ∧
    lookupDataset (store_data_with_id [] "t" (List.replicate (rowCap + 1) ([] : Row))).1 "t" =
      some { rows := (List.replicate (rowCap + 1) ([] : Row)).take rowCap,
             schemaCache := none } ∧
    (store_data_with_id [] "t" (List.replicate (rowCap + 1) ([] : Row))).2 = 1 := by
  have h : (List.replicate (rowCap + 1) ([] : Row)).length > rowCap := by
    simp only [List.length_replicate]
    omega
  have hc := claim_C8_row_cap [] "t" (List.replicate (rowCap + 1) ([] : Row)) h
  refine ⟨h, hc.1, ?_⟩
  rw [hc.2.2.1]
  simp only [List.length_replicate]
  omega

/-- C9: a session terminating as `Rejected` returns exactly the rejection
object in place of a chart, and the frontend displays the reason as an
error while leaving the result empty, so no chart is rendered. -/
theorem claim_C9_rejected_handling (r : String) (u : TokenUsage)
    (resp : ApiResponse) (h : resp.rejected = true) :
    sessionResponse (.rejectedOutcome r) u =
      .ok { rejected := true, reject_reason := some r, chart_type := none,
            chart_config := none, insight := none, token_usage := none } ∧
    (handleGenerateResponse resp).2 = none ∧
    (∀ s2, resp.reject_reason = some s2 → s2 ≠ "" →
      (handleGenerateResponse resp).1 = s2) ∧
    (handleGenerateResponse resp).1 ≠ "" := by
  refine ⟨rfl, ?_, ?_, ?_⟩
  · simp [handleGenerateResponse, h]
  · intro s2 hs2 hne
    simp [handleGenerateResponse, h, hs2, hne]
  · cases hr : resp.reject_reason with
    | none =>
      simp only [handleGenerateResponse, h, if_true, hr]
      decide
    | some s2 =>
      by_cases hs : s2 = ""
      · simp only [handleGenerateResponse, h, if_true, hr, hs]
        decide
      · simp only [handleGenerateResponse, h, if_true, hr, if_neg hs]
        exact hs

/-- Witness for C9: a rejected response with reason text. -/
theorem claim_C9_witness :
    ({ rejected := true, reject_reason := some "not a visualization task",
       chart_type := none, chart_config := none, insight := none,
       token_usage := none : ApiResponse }).rejected = true ∧
    (handleGenerateResponse
      { rejected := true, reject_reason := some "not a visualization task",
        chart_type := none, chart_config := none, insight := none,
        token_usage := none }).2 = none :=
  ⟨rfl,
   (claim_C9_rejected_handling "r" ⟨0, 0, 0, 0⟩
     { rejected := true, reject_reason := some "not a visualization task",
       chart_type := none, chart_config := none, insight := none,
       token_usage := none } rfl).2.1⟩

/-- C10: the chart renderer is total: a missing config, a missing or empty
data array renders the no-data placeholder; an unknown chart type with
data renders the unsupported fallback; a known type renders its chart; and
every input renders one of the three. -/
theorem claim_C10_renderer_total (t : String) (cfg : ChartConfig) (d : List Row) :
    renderChart t none = .noData ∧
    (cfg.data = none → renderChart t (some cfg) = .noData) ∧
    (cfg.data = some [] → renderChart t (some cfg) = .noData) ∧
    (cfg.data = some d → d ≠ [] → t ∉ knownChartTypes →
      renderChart t (some cfg) = .unsupported t) ∧
    (cfg.data = some d → d ≠ [] → t ∈ knownChartTypes →
      renderChart t (some cfg) = .chart t) ∧
    (∀ c2 : Option ChartConfig, renderChart t c2 = .noData ∨
      (∃ k, renderChart t c2 = .chart k) ∨ ∃ u2, renderChart t c2 = .unsupported u2) := by
  refine ⟨rfl, ?_, ?_, ?_, ?_, ?_⟩
  · intro hd
    simp [renderChart, hd]
  · intro hd
    simp [renderChart, hd]
  · intro hd hne hk
    simp [renderChart, hd, List.isEmpty_iff, hne, hk]
  · intro hd hne hk
    simp [renderChart, hd, List.isEmpty_iff, hne, hk]
  · intro c2
    cases c2 with
    | none => exact Or.inl rfl
    | some c =>
      cases hd2 : c.data with
      | none => exact Or.inl (by simp [renderChart, hd2])
      | some d2 =>
        by_cases he : d2.isEmpty
        · exact Or.inl (by simp [renderChart, hd2, he])
        · by_cases hk : t ∈ knownChartTypes
          · exact Or.inr (Or.inl ⟨t, by simp [renderChart, hd2, he, hk]⟩)
          · exact Or.inr (Or.inr ⟨t, by simp [renderChart, hd2, he, hk]⟩)

/-- Witness for C10: an unsupported heatmap request and a missing config. -/
theorem claim_C10_witness :
    renderChart "heatmap"
      (some { x_field := "x", y_field := ["y"],
              data := some [[("x", Value.num 1)]], title := none,
              x_label := none, y_label := none, colors := none }) =
      .unsupported "heatmap" ∧
    renderChart "bar" none = .noData :=
  ⟨(claim_C10_renderer_total "heatmap"
      { x_field := "x", y_field := ["y"],
        data := some [[("x", Value.num 1)]], title := none,
        x_label := none, y_label := none, colors := none }
      [[("x", Value.num 1)]]).2.2.2.1 rfl (by decide) (by decide),
   (claim_C10_renderer_total "bar"
      { x_field := "x", y_field := ["y"], data := none, title := none,
        x_label := none, y_label := none, colors := none } []).1⟩
